import Mathlib

/-!
Verification development for the FileZee temporary-file-storage service.

The definitions below are a shallow embedding of the repository's upload,
metadata and lifecycle logic:

- FileMetadata.js (FileMetadataStore): the in-memory map of records backed by
  a full-snapshot write on every mutation.  The JavaScript Map is embedded as
  an insertion-ordered association list; the fallible snapshot write
  (fs.writeFile inside persist) is embedded as a boolean parameter persistOk,
  with the thrown error surfaced through Except.  The store is modelled in
  its post-initialize state (the lazy initialize guard is identity there).
- security.js: sanitizeFilename, validateFileId, checkStorageLimit and
  validateFileMimeType.  Node's posix path.basename and path.extname are
  embedded on character lists; the two regex replaces of sanitizeFilename
  are embedded as removeDotDot (global, left-to-right, non-overlapping
  removal of "..") followed by stripSeparators (removal of every '/'
  and '\').
- multer.js fileFilter plus the route chain of POST /api/upload
  (fileRoutes.js): gate order is fileFilter (blocked extension, declared
  type), then the disk write by multer, then checkStorageLimit, then
  validateFileMimeType, then metadataStore.addFile.  The storage directory
  is embedded as the list of entry names it contains; since every stored
  file lives in the single upload directory, a record's path field and the
  directory entry name coincide in the fixtures.  Content sniffing
  (FileType.fromBuffer) is an external library call and enters as an
  Option String parameter: some t when a binary signature is detected,
  none when sniffing yields no signature.
- lifecycleService.js: cleanupExpiredFiles, cleanupOrphanedMetadata
  (delegating to the store's cleanOrphanedMetadata) and
  cleanupOrphanedFiles, composed by runCleanup in a single try/catch.
  cleanupExpiredFiles additionally emits a trace of its observable
  filesystem/metadata actions so that ordering properties can be stated.
-/

namespace FileZee

/-- One stored file's metadata record, as built by FileMetadataStore.addFile.
Timestamps are milliseconds since epoch, embedded as Nat. -/
structure FileRecord where
  id : String
  originalName : String
  filename : String
  mimeType : String
  size : Nat
  path : String
  uploadedAt : Nat
  expiresAt : Nat
deriving DecidableEq

/-- The in-memory index of FileMetadataStore: a JavaScript Map from id to
record, embedded as an insertion-ordered association list with unique keys
maintained by mapSet. -/
abbrev MetaStore := List (String × FileRecord)

/-- Map.set: overwrite in place when the key is present, append otherwise. -/
def mapSet (m : MetaStore) (k : String) (v : FileRecord) : MetaStore :=
  if m.any (fun p => p.1 == k) then
    m.map (fun p => if p.1 == k then (k, v) else p)
  else
    m ++ [(k, v)]

/-- Map.get: the record stored under the key, if any. -/
def mapGet (m : MetaStore) (k : String) : Option FileRecord :=
  (m.find? (fun p => p.1 == k)).map (fun p => p.2)

/-- Map.delete: drop every entry with the key. -/
def mapDelete (m : MetaStore) (k : String) : MetaStore :=
  m.filter (fun p => !(p.1 == k))

/-- Array.from(this.metadata.values()). -/
def storeValues (m : MetaStore) : List FileRecord :=
  m.map (fun p => p.2)

/-- The fields of the multer file object that addFile consumes. -/
structure FileData where
  filename : String
  originalname : String
  mimetype : String
  size : Nat
  path : String
deriving DecidableEq

/-- The record literal constructed inside FileMetadataStore.addFile:
id is the unique filename, expiresAt = now + fileRetentionMs. -/
def mkRecord (fd : FileData) (now retentionMs : Nat) : FileRecord :=
  { id := fd.filename
    originalName := fd.originalname
    filename := fd.filename
    mimeType := fd.mimetype
    size := fd.size
    path := fd.path
    uploadedAt := now
    expiresAt := now + retentionMs }

/-- FileMetadataStore.addFile: set the record into the map, then persist the
full snapshot.  The JavaScript method mutates the map before awaiting
persist, so on a failed write the returned store still holds the record and
the error propagates. -/
def addFile (m : MetaStore) (fd : FileData) (now retentionMs : Nat)
    (persistOk : Bool) : MetaStore × Except String FileRecord :=
  let record := mkRecord fd now retentionMs
  let m' := mapSet m record.id record
  if persistOk then (m', Except.ok record)
  else (m', Except.error "Failed to persist metadata")

/-- FileMetadataStore.getTotalStorageUsed: sum of record sizes. -/
def getTotalStorageUsed (m : MetaStore) : Nat :=
  (storeValues m).foldl (fun total r => total + r.size) 0

/-- FileMetadataStore.getExpiredFiles: records with expiresAt <= now. -/
def getExpiredFiles (m : MetaStore) (now : Nat) : List FileRecord :=
  (storeValues m).filter (fun r => decide (r.expiresAt ≤ now))

/-- FileMetadataStore.deleteFile: null when absent; otherwise delete from the
map and persist (the map mutation precedes the fallible write, as in
addFile). -/
def deleteFile (m : MetaStore) (fileId : String) (persistOk : Bool) :
    MetaStore × Except String (Option FileRecord) :=
  match mapGet m fileId with
  | none => (m, Except.ok none)
  | some record =>
    let m' := mapDelete m fileId
    if persistOk then (m', Except.ok (some record))
    else (m', Except.error "Failed to persist metadata")

/-- The ids collected by cleanOrphanedMetadata: records whose path no longer
exists in the storage directory (fs.access fails). -/
def orphanedIds (m : MetaStore) (disk : List String) : List String :=
  ((storeValues m).filter (fun r => !(disk.contains r.path))).map
    (fun r => r.id)

/-- FileMetadataStore.cleanOrphanedMetadata: collect ids of records whose
file is gone, delete them from the map, persist only when at least one was
removed, and return the count.  The fallible persist is again the persistOk
parameter; on failure the map mutations have already happened. -/
def cleanOrphanedMetadata (m : MetaStore) (disk : List String)
    (persistOk : Bool) : MetaStore × Except String Nat :=
  let orphaned := orphanedIds m disk
  let m' := orphaned.foldl (fun acc i => mapDelete acc i) m
  if orphaned.length > 0 then
    if persistOk then (m', Except.ok orphaned.length)
    else (m', Except.error "Failed to persist metadata")
  else (m', Except.ok 0)

/-- Node posix path.basename on the character list of a path: skip trailing
separators, then take the final segment. -/
def basenameChars (s : String) : List Char :=
  ((s.data.reverse.dropWhile (fun c => c == '/')).takeWhile
    (fun c => !(c == '/'))).reverse

/-- Node posix path.basename. -/
def posixBasename (s : String) : String :=
  String.mk (basenameChars s)

/-- Node posix path.extname on a basename character list: empty when there
is no dot, when the rightmost dot is the first character (hidden files), or
for the literal name "..".  Otherwise the substring from the rightmost dot. -/
def extnameChars (b : List Char) : List Char :=
  let afterDotRev := b.reverse.takeWhile (fun c => !(c == '.'))
  if afterDotRev.length = b.length then []
  else
    let d := b.length - afterDotRev.length - 1
    if d = 0 then []
    else if b = ['.', '.'] then []
    else b.drop d

/-- Node posix path.extname. -/
def extname (s : String) : String :=
  String.mk (extnameChars (basenameChars s))

/-- String.prototype.toLowerCase, character by character (the strings it is
applied to here are ASCII extensions). -/
def toLowerAscii (s : String) : String :=
  String.mk (s.data.map Char.toLower)

/-- String.prototype.startsWith('.'): whether the first character is a dot. -/
def startsWithDot (s : String) : Bool :=
  match s.data with
  | '.' :: _ => true
  | _ => false

/-- The global regex replace of ".." with "" in sanitizeFilename: scan left
to right, removing non-overlapping occurrences. -/
def removeDotDot : List Char → List Char
  | '.' :: '.' :: rest => removeDotDot rest
  | c :: rest => c :: removeDotDot rest
  | [] => []

/-- The global regex replace of path separators with "" in sanitizeFilename:
drop every '/' and every '\'. -/
def stripSeparators (cs : List Char) : List Char :=
  cs.filter (fun c => !(c == '/' || c == '\\'))

/-- security.js sanitizeFilename: basename, strip "..", strip separators,
throw on an empty result. -/
def sanitizeFilename (filename : String) : Except String String :=
  let sanitized :=
    String.mk (stripSeparators (removeDotDot (basenameChars filename)))
  if sanitized = "" then Except.error "Invalid filename"
  else Except.ok sanitized

/-- security.js validateFileId: reject a missing/empty id, otherwise replace
the route parameter with sanitizeFilename's result (propagating its
rejection). -/
def validateFileId (fileId : String) : Except String String :=
  if fileId = "" then Except.error "Invalid file ID"
  else sanitizeFilename fileId

/-- Whether a character list contains two adjacent dots, i.e. the substring
".." of the specification's traversal property. -/
def hasDotDot : List Char → Bool
  | '.' :: '.' :: _ => true
  | _ :: rest => hasDotDot rest
  | [] => false

/-- security.js checkStorageLimit's admission test: reject exactly when
current usage plus the incoming size strictly exceeds the configured
ceiling. -/
def checkStorageLimit (m : MetaStore) (incomingSize maxStorageBytes : Nat) :
    Bool :=
  decide (getTotalStorageUsed m + incomingSize > maxStorageBytes)

/-- The configuration values the ingest chain reads from config.js. -/
structure IngestConfig where
  allowedMimeTypes : List String
  blockedExtensions : List String
  maxStorageBytes : Nat
  fileRetentionMs : Nat
deriving DecidableEq

/-- config.js defaults. -/
def defaultConfig : IngestConfig :=
  { allowedMimeTypes :=
      ["image/jpeg", "image/png", "image/gif", "image/webp",
       "application/pdf", "text/plain", "text/csv",
       "application/vnd.openxmlformats-officedocument.wordprocessingml.document",
       "application/vnd.openxmlformats-officedocument.spreadsheetml.sheet"]
    blockedExtensions :=
      [".exe", ".bat", ".cmd", ".sh", ".ps1", ".msi", ".dll", ".scr",
       ".jar", ".vbs", ".js", ".app"]
    maxStorageBytes := 1000 * 1024 * 1024
    fileRetentionMs := 24 * 60 * 60 * 1000 }

/-- The distinct rejection outcomes of the upload chain. -/
inductive UploadError
  | extensionBlocked
  | declaredTypeNotAllowed
  | typeMismatch
  | sniffedTypeNotAllowed
  | storageExceeded
  | persistenceFailure
deriving DecidableEq

/-- multer.js fileFilter: reject a blocked (case-insensitively lowercased)
extension, then a declared MIME type absent from the allow-list.  Runs
before any byte reaches the storage directory. -/
def fileFilter (cfg : IngestConfig) (originalname mimetype : String) :
    Option UploadError :=
  let ext := toLowerAscii (extname originalname)
  if cfg.blockedExtensions.contains ext then
    some UploadError.extensionBlocked
  else if !(cfg.allowedMimeTypes.contains mimetype) then
    some UploadError.declaredTypeNotAllowed
  else none

/-- The verdict of security.js validateFileMimeType. -/
inductive MimeVerdict
  | mismatch
  | notAllowed
  | pass
deriving DecidableEq

/-- security.js validateFileMimeType: with a detected signature, first the
mismatch check against the declared type, then the allow-list check on the
detected type; with no detected signature the request passes through. -/
def validateFileMimeType (allowed : List String) (mimetype : String)
    (sniffed : Option String) : MimeVerdict :=
  match sniffed with
  | some actual =>
    if actual ≠ mimetype then MimeVerdict.mismatch
    else if !(allowed.contains actual) then MimeVerdict.notAllowed
    else MimeVerdict.pass
  | none => MimeVerdict.pass

/-- The observable result of one POST /api/upload attempt: the outcome, the
storage directory contents afterwards, and the in-memory store afterwards. -/
structure IngestResult where
  outcome : Except UploadError FileRecord
  disk : List String
  store : MetaStore

/-- The final route handler: metadataStore.addFile on the multer file
object.  On a failed persist the thrown error reaches the error handler and
neither the written file nor the freshly set map entry is touched again. -/
def ingestCommit (cfg : IngestConfig) (persistOk : Bool) (m : MetaStore)
    (disk1 : List String) (originalname mimetype storedName : String)
    (size : Nat) (now : Nat) : IngestResult :=
  let fd : FileData :=
    { filename := storedName, originalname := originalname,
      mimetype := mimetype, size := size, path := storedName }
  match addFile m fd now cfg.fileRetentionMs persistOk with
  | (m', Except.ok record) => ⟨Except.ok record, disk1, m'⟩
  | (m', Except.error _) =>
    ⟨Except.error UploadError.persistenceFailure, disk1, m'⟩

/-- The POST /api/upload middleware chain of fileRoutes.js, in route order:
multer (fileFilter, then the disk write under the generated storedName),
checkStorageLimit (unlinking the written file on rejection),
validateFileMimeType (unlinking on either rejection), then addFile. -/
def ingest (cfg : IngestConfig) (persistOk : Bool) (m : MetaStore)
    (disk : List String) (originalname mimetype storedName : String)
    (size : Nat) (sniffed : Option String) (now : Nat) : IngestResult :=
  match fileFilter cfg originalname mimetype with
  | some e => ⟨Except.error e, disk, m⟩
  | none =>
    let disk1 := storedName :: disk
    if checkStorageLimit m size cfg.maxStorageBytes then
      ⟨Except.error UploadError.storageExceeded, disk1.erase storedName, m⟩
    else
      match validateFileMimeType cfg.allowedMimeTypes mimetype sniffed with
      | MimeVerdict.mismatch =>
        ⟨Except.error UploadError.typeMismatch, disk1.erase storedName, m⟩
      | MimeVerdict.notAllowed =>
        ⟨Except.error UploadError.sniffedTypeNotAllowed,
          disk1.erase storedName, m⟩
      | MimeVerdict.pass =>
        ingestCommit cfg persistOk m disk1 originalname mimetype storedName
          size now

/-- The shared state the lifecycle sweeper acts on: the storage directory's
entry names and the metadata store. -/
structure SweepState where
  disk : List String
  meta : MetaStore
deriving DecidableEq

/-- The observable actions of the expiry sweep, in execution order:
an attempted fs.unlink of a record's file, and the removal of a metadata
record. -/
inductive SweepEv
  | unlinkTry (p : String)
  | metaDel (id : String)
deriving DecidableEq

/-- The per-record loop body of lifecycleService.cleanupExpiredFiles: for
each expired record, first attempt to unlink its file (an ENOENT, i.e. an
entry already absent from the directory, is tolerated and the loop body
continues), then metadataStore.deleteFile.  A throw from deleteFile's
persist is caught by the surrounding try, so the count is not incremented
but the iteration continues; the in-memory removal has already happened. -/
def cleanupExpiredGo (persistOk : Bool) :
    List FileRecord → SweepState → SweepState × List SweepEv × Nat
  | [], st => (st, [], 0)
  | f :: rest, st =>
    let disk' := st.disk.erase f.path
    let found := (mapGet st.meta f.id).isSome
    let meta' := mapDelete st.meta f.id
    let res := cleanupExpiredGo persistOk rest ⟨disk', meta'⟩
    (res.1,
      SweepEv.unlinkTry f.path ::
        ((if found then [SweepEv.metaDel f.id] else []) ++ res.2.1),
      if found && !persistOk then res.2.2 else res.2.2 + 1)

/-- lifecycleService.cleanupExpiredFiles: run the loop over
getExpiredFiles(now), returning the final state, the action trace, and the
deleted count. -/
def cleanupExpiredFiles (st : SweepState) (now : Nat) (persistOk : Bool) :
    SweepState × List SweepEv × Nat :=
  cleanupExpiredGo persistOk (getExpiredFiles st.meta now) st

/-- The per-entry loop of lifecycleService.cleanupOrphanedFiles: .gitkeep
and hidden entries (leading dot) are skipped; an entry whose name matches no
record's filename is unlinked and counted; known entries are kept. -/
def orphanFilesGo (known : List String) : List String → List String × Nat
  | [] => ([], 0)
  | f :: rest =>
    let res := orphanFilesGo known rest
    if f = ".gitkeep" || startsWithDot f then (f :: res.1, res.2)
    else if !(known.contains f) then (res.1, res.2 + 1)
    else (f :: res.1, res.2)

/-- lifecycleService.cleanupOrphanedFiles: read the directory, build the set
of known filenames from the metadata, and remove unknown entries.  Returns
the remaining directory contents and the deleted count. -/
def cleanupOrphanedFiles (disk : List String) (m : MetaStore) :
    List String × Nat :=
  orphanFilesGo ((storeValues m).map (fun r => r.filename)) disk

/-- The value lifecycleService.runCleanup resolves with: the per-phase
counts on success, or the caught error's message on failure. -/
inductive CleanupResult
  | ok (expiredFiles orphanedMetadata orphanedFiles : Nat)
  | failed (reason : String)
deriving DecidableEq

/-- lifecycleService.runCleanup: the three phases run sequentially inside
one try/catch, so an error thrown by the orphaned-metadata phase (the only
phase that can throw: its persist) skips the orphaned-file phase and yields
the failure result. -/
def runCleanup (st : SweepState) (now : Nat) (persistOk : Bool) :
    SweepState × CleanupResult :=
  let p1 := cleanupExpiredFiles st now persistOk
  let st1 := p1.1
  match cleanOrphanedMetadata st1.meta st1.disk persistOk with
  | (m2, Except.error msg) => (⟨st1.disk, m2⟩, CleanupResult.failed msg)
  | (m2, Except.ok orphanedCount) =>
    let p3 := cleanupOrphanedFiles st1.disk m2
    (⟨p3.1, m2⟩, CleanupResult.ok p1.2.2 orphanedCount p3.2)

/-- One in-flight metadata mutation of FileMetadataStore, for the
concurrency model: its map mutation, two completion flags for its two
event-loop segments, and the snapshot array it built.  Because the map
mutation and the snapshot construction (Array.from inside persist) run in
the same synchronous segment before the awaited fs.writeFile, they form one
atomic step; the completion of the write is the second step. -/
structure MutThread where
  mutation : MetaStore → MetaStore
  done1 : Bool
  done2 : Bool
  snap : MetaStore

/-- The process state of the concurrency model: the shared in-memory map,
the durable snapshot file's contents, and the in-flight mutations. -/
structure ConcState where
  mem : MetaStore
  disk : MetaStore
  threads : List MutThread

/-- One scheduler step: run the next pending segment of thread i.  Segment
one mutates the map and builds the snapshot array atomically (they share
one synchronous event-loop segment in addFile/persist).  Segment two is the
completion of the awaited fs.writeFile, modelled OPTIMISTICALLY as an
atomic replacement of the durable snapshot: real concurrent fs.writeFile
calls to the same path can interleave their open/truncate/write syscalls
and leave a byte-level mix of two snapshots, a torn durable state this
model excludes.  The model is therefore used only negatively — to exhibit
interleavings the program admits even under this favourable assumption —
never to certify a guarantee of the snapshot file's contents. -/
def concStep (s : ConcState) (i : Nat) : ConcState :=
  match s.threads.get? i with
  | none => s
  | some t =>
    if t.done1 = false then
      let mem' := t.mutation s.mem
      { mem := mem', disk := s.disk,
        threads := s.threads.set i
          { mutation := t.mutation, done1 := true, done2 := t.done2,
            snap := mem' } }
    else if t.done2 = false then
      { mem := s.mem, disk := t.snap,
        threads := s.threads.set i
          { mutation := t.mutation, done1 := t.done1, done2 := true,
            snap := t.snap } }
    else s

/-- Run a schedule: a list of thread indices, each executing that thread's
next pending segment (indices of finished or absent threads are no-ops). -/
def concRun (s : ConcState) (sched : List Nat) : ConcState :=
  sched.foldl concStep s

/-- A pending put(record), as issued by addFile. -/
def putThread (r : FileRecord) : MutThread :=
  { mutation := fun m => mapSet m r.id r, done1 := false, done2 := false,
    snap := [] }

deriving instance DecidableEq for Except

/-- Fixture: a record stored under id "a". -/
def recA : FileRecord :=
  { id := "a", originalName := "a.txt", filename := "a",
    mimeType := "text/plain", size := 1, path := "a", uploadedAt := 0,
    expiresAt := 10 }

/-- Fixture: a record stored under id "b". -/
def recB : FileRecord :=
  { id := "b", originalName := "b.txt", filename := "b",
    mimeType := "text/plain", size := 2, path := "b", uploadedAt := 0,
    expiresAt := 10 }

/-- Fixture: two concurrent put operations against an empty store whose
snapshot file starts empty. -/
def twoPutInit : ConcState :=
  { mem := [], disk := [], threads := [putThread recA, putThread recB] }

/-- Fixture: a record whose on-disk file is gone (orphaned metadata). -/
def recOrphan : FileRecord :=
  { id := "o1", originalName := "o.txt", filename := "o1",
    mimeType := "text/plain", size := 1, path := "o1path", uploadedAt := 0,
    expiresAt := 1000 }

/-- Fixture: a sweep state holding one orphaned metadata record and one
orphaned on-disk file named ghost. -/
def stOrphans : SweepState :=
  { disk := ["ghost"], meta := [("o1", recOrphan)] }

/-- Fixture: a record that is expired at time 100. -/
def recExp : FileRecord :=
  { id := "e1", originalName := "e.txt", filename := "e1",
    mimeType := "text/plain", size := 1, path := "e1", uploadedAt := 0,
    expiresAt := 5 }

/-- Fixture: a sweep state holding one expired record and its file. -/
def stExpired : SweepState :=
  { disk := ["e1"], meta := [("e1", recExp)] }

/-- Fixture: a configuration whose aggregate quota is exactly five bytes. -/
def cfgQuota : IngestConfig :=
  { allowedMimeTypes := ["text/plain"], blockedExtensions := [".exe"],
    maxStorageBytes := 5, fileRetentionMs := 10 }

/-- Fixture: the multer file object of a small text upload. -/
def fdSmall : FileData :=
  ⟨"f_1.txt", "f.txt", "text/plain", 7, "f_1.txt"⟩

/-- Fixture: a store holding one record whose file kept.txt is on disk. -/
def mKept : MetaStore :=
  [("kept.txt",
    { id := "kept.txt", originalName := "k.txt", filename := "kept.txt",
      mimeType := "text/plain", size := 3, path := "kept.txt",
      uploadedAt := 0, expiresAt := 50 })]

/-! Helper lemmas. -/

theorem find?_map_overwrite (k : String) (v : FileRecord) :
    ∀ m : MetaStore, m.any (fun p => p.1 == k) = true →
      (m.map (fun p => if p.1 == k then (k, v) else p)).find?
        (fun p => p.1 == k) = some (k, v) := by
  intro m h
  induction m with
  | nil => simp at h
  | cons p rest ih =>
    rw [List.map_cons]
    by_cases hp : p.1 = k
    · rw [if_pos (by simp [hp]), List.find?_cons_of_pos _ (by simp)]
    · rw [if_neg (by simp [hp]), List.find?_cons_of_neg _ (by simp [hp])]
      have h' : rest.any (fun q => q.1 == k) = true := by
        simpa [List.any_cons, hp] using h
      exact ih h'

theorem find?_append_left_none (k : String) :
    ∀ m : MetaStore, m.any (fun p => p.1 == k) = false →
      ∀ l : MetaStore,
        (m ++ l).find? (fun p => p.1 == k) = l.find? (fun p => p.1 == k) := by
  intro m h
  induction m with
  | nil => simp
  | cons p rest ih =>
    intro l
    rw [List.any_cons, Bool.or_eq_false_iff] at h
    obtain ⟨hp, h'⟩ := h
    rw [List.cons_append, List.find?_cons_of_neg _ (by simp [hp])]
    exact ih h' l

theorem fileFilter_none (cfg : IngestConfig) (originalname declared : String)
    (hext : cfg.blockedExtensions.contains (toLowerAscii (extname
        originalname)) = false)
    (hcd : cfg.allowedMimeTypes.contains declared = true) :
    fileFilter cfg originalname declared = none := by
  have h1 : toLowerAscii (extname originalname) ∉ cfg.blockedExtensions := by
    simpa using hext
  have h2 : declared ∈ cfg.allowedMimeTypes := by
    simpa using hcd
  simp [fileFilter, h1, h2]

theorem mapGet_mapSet_self (m : MetaStore) (k : String) (v : FileRecord) :
    mapGet (mapSet m k v) k = some v := by
  unfold mapGet mapSet
  by_cases h : m.any (fun p => p.1 == k) = true
  · rw [if_pos h, find?_map_overwrite k v m h]
    rfl
  · rw [if_neg h, find?_append_left_none k m (Bool.eq_false_iff.mpr h)]
    simp [List.find?]

/-! Claim C2. -/

/-- Claim C2, counterexample: with an empty store and a failing snapshot
write, addFile returns the persistence error but the in-memory map is NOT
rolled back to its pre-mutation contents — the new record is still present
afterwards, contradicting the claimed rollback. -/
theorem addFile_persist_failure_no_rollback_cex :
    (addFile [] fdSmall 0 10 false).1 = [("f_1.txt", mkRecord fdSmall 0 10)] ∧
    (addFile [] fdSmall 0 10 false).1 ≠ ([] : MetaStore) ∧
    (addFile [] fdSmall 0 10 false).2
      = Except.error "Failed to persist metadata" := by
  decide

/-- Claim C2, amended: if the durable snapshot write performed during
addFile fails, the operation fails with the persistence error, but the
in-memory map keeps the new record (the mutation is not rolled back). -/
theorem addFile_persist_failure_keeps_record (m : MetaStore) (fd : FileData)
    (now ret : Nat) :
    (addFile m fd now ret false).2 = Except.error "Failed to persist metadata"
      ∧ mapGet (addFile m fd now ret false).1 fd.filename
          = some (mkRecord fd now ret) := by
  refine ⟨by simp [addFile], ?_⟩
  show mapGet (mapSet m (mkRecord fd now ret).id (mkRecord fd now ret))
      fd.filename = some (mkRecord fd now ret)
  exact mapGet_mapSet_self m fd.filename (mkRecord fd now ret)

/-! Claim C10. -/

/-- Claim C10, counterexample: the input consisting of dot, backslash, dot
passes sanitizeFilename (and hence validateFileId) and yields the string
"..", which contains the ".." substring: the separator removal runs after
the ".." removal and can create a fresh "..". -/
theorem sanitize_filename_dotdot_cex :
    sanitizeFilename ".\\." = Except.ok ".." ∧
    validateFileId ".\\." = Except.ok ".." ∧
    hasDotDot "..".data = true := by
  decide

/-- Claim C10, amended: sanitizeFilename either throws (empty result) or
returns a non-empty string containing no '/' and no '\' character, and
every fileId that validateFileId passes through satisfies the same; the
stronger claimed guarantee of no ".." substring does not hold. -/
theorem sanitize_filename_no_separators (s r : String) :
    (validateFileId s = Except.ok r → sanitizeFilename s = Except.ok r) ∧
    (sanitizeFilename s = Except.ok r →
      r ≠ "" ∧ '/' ∉ r.data ∧ '\\' ∉ r.data) := by
  constructor
  · intro h
    unfold validateFileId at h
    by_cases hs : s = ""
    · rw [if_pos hs] at h
      exact absurd h (by simp)
    · rwa [if_neg hs] at h
  · intro h
    unfold sanitizeFilename at h
    by_cases he :
        String.mk (stripSeparators (removeDotDot (basenameChars s))) = ""
    · rw [if_pos he] at h
      exact absurd h (by simp)
    · rw [if_neg he] at h
      obtain rfl : String.mk (stripSeparators (removeDotDot (basenameChars s)))
          = r := by
        exact Except.ok.inj h
      refine ⟨he, ?_, ?_⟩
      · intro hmem
        have := (List.mem_filter.mp hmem).2
        simp at this
      · intro hmem
        have := (List.mem_filter.mp hmem).2
        simp at this

/-- Claim C10, witness for the amended theorem at a concrete input. -/
theorem sanitize_filename_no_separators_witness :
    "report.pdf" ≠ "" ∧ '/' ∉ "report.pdf".data ∧ '\\' ∉ "report.pdf".data :=
  (sanitize_filename_no_separators "a/../report.pdf" "report.pdf").2 (by decide)

theorem orphanFilesGo_spec (known : List String) :
    ∀ disk : List String,
      (orphanFilesGo known disk).2 =
        (disk.filter (fun f =>
          !(decide (f = ".gitkeep") || startsWithDot f)
            && !(known.contains f))).length
      ∧ (∀ f, f ∈ (orphanFilesGo known disk).1 → f ∈ disk)
      ∧ (∀ f ∈ disk, startsWithDot f = false → known.contains f = false →
          f ∉ (orphanFilesGo known disk).1) := by
  intro disk
  induction disk with
  | nil => refine ⟨rfl, by simp [orphanFilesGo], by simp⟩
  | cons g rest ih =>
    obtain ⟨ihc, ihs, ihm⟩ := ih
    by_cases h1 : (decide (g = ".gitkeep") || startsWithDot g) = true
    · have hstep : orphanFilesGo known (g :: rest)
          = (g :: (orphanFilesGo known rest).1, (orphanFilesGo known rest).2) := by
        simp [orphanFilesGo, h1]
      have hpg : (!(decide (g = ".gitkeep") || startsWithDot g)
          && !(known.contains g)) = false := by
        rw [h1]
        rfl
      refine ⟨?_, ?_, ?_⟩
      · rw [hstep]
        simp only [List.filter_cons, hpg]
        simpa using ihc
      · intro f hf
        rw [hstep] at hf
        rcases List.mem_cons.mp hf with rfl | hf2
        · exact List.mem_cons_self _ _
        · exact List.mem_cons_of_mem _ (ihs f hf2)
      · intro f hf hdot hknown
        rw [hstep]
        simp only [List.mem_cons, not_or]
        refine ⟨?_, fun hmem => ihm f (ihs f hmem) hdot hknown hmem⟩
        rintro rfl
        rcases Bool.or_eq_true_iff.mp h1 with hg | hg
        · rw [of_decide_eq_true hg] at hdot
          exact absurd hdot (by decide)
        · rw [hg] at hdot
          exact absurd hdot (by simp)
    · have hb1 : (decide (g = ".gitkeep") || startsWithDot g) = false :=
        Bool.eq_false_iff.mpr h1
      by_cases h2 : known.contains g = true
      · have hgmem : g ∈ known := by simpa using h2
        have hstep : orphanFilesGo known (g :: rest)
            = (g :: (orphanFilesGo known rest).1,
              (orphanFilesGo known rest).2) := by
          simp [orphanFilesGo, h1, hgmem]
        have hpg : (!(decide (g = ".gitkeep") || startsWithDot g)
            && !(known.contains g)) = false := by
          rw [hb1, h2]
          rfl
        refine ⟨?_, ?_, ?_⟩
        · rw [hstep]
          simp only [List.filter_cons, hpg]
          simpa using ihc
        · intro f hf
          rw [hstep] at hf
          rcases List.mem_cons.mp hf with rfl | hf2
          · exact List.mem_cons_self _ _
          · exact List.mem_cons_of_mem _ (ihs f hf2)
        · intro f hf hdot hknown
          rw [hstep]
          simp only [List.mem_cons, not_or]
          refine ⟨?_, fun hmem => ihm f (ihs f hmem) hdot hknown hmem⟩
          rintro rfl
          rw [h2] at hknown
          exact absurd hknown (by simp)
      · have hb2 : known.contains g = false := Bool.eq_false_iff.mpr h2
        have hgmem : g ∉ known := by simpa using h2
        have hstep : orphanFilesGo known (g :: rest)
            = ((orphanFilesGo known rest).1,
              (orphanFilesGo known rest).2 + 1) := by
          simp [orphanFilesGo, h1, hgmem]
        have hpg : (!(decide (g = ".gitkeep") || startsWithDot g)
            && !(known.contains g)) = true := by
          rw [hb1, hb2]
          rfl
        refine ⟨?_, ?_, ?_⟩
        · rw [hstep]
          simp only [List.filter_cons, hpg]
          simpa using ihc
        · intro f hf
          rw [hstep] at hf
          exact List.mem_cons_of_mem _ (ihs f hf)
        · intro f hf hdot hknown
          rw [hstep]
          intro hmem
          exact ihm f (ihs f hmem) hdot hknown hmem

/-! Claim C8. -/

/-- Claim C8, counterexample: a hidden file (leading dot) with no metadata
record survives the orphan-file phase and is not counted, so not every
record-less file is deleted. -/
theorem orphan_sweep_hidden_file_cex :
    cleanupOrphanedFiles [".secret"] ([] : MetaStore) = ([".secret"], 0) ∧
    (storeValues ([] : MetaStore)).map (fun r => r.filename) = [] := by
  decide

/-- Claim C8, amended: after the orphan-file phase, every NON-HIDDEN file
name (not starting with a dot; .gitkeep is hidden) that matches no record's
filename has been deleted, and the returned count equals the number of such
files; hidden record-less files are skipped. -/
theorem orphan_sweep_removes_nonhidden_orphans (disk : List String)
    (m : MetaStore) :
    (cleanupOrphanedFiles disk m).2 =
      (disk.filter (fun f =>
        !(decide (f = ".gitkeep") || startsWithDot f)
          && !(((storeValues m).map (fun r => r.filename)).contains f))).length
    ∧ ∀ f ∈ disk, startsWithDot f = false →
        ((storeValues m).map (fun r => r.filename)).contains f = false →
        f ∉ (cleanupOrphanedFiles disk m).1 := by
  obtain ⟨hc, _, hm⟩ :=
    orphanFilesGo_spec ((storeValues m).map (fun r => r.filename)) disk
  exact ⟨hc, hm⟩

/-- Claim C8, witness for the amended theorem: a record-less non-hidden
file ghost is gone after the phase while kept.txt has a record. -/
theorem orphan_sweep_removes_nonhidden_orphans_witness :
    "ghost" ∉ (cleanupOrphanedFiles ["ghost", "kept.txt"] mKept).1 :=
  (orphan_sweep_removes_nonhidden_orphans ["ghost", "kept.txt"] mKept).2
    "ghost" (by decide) (by decide) (by decide)

/-! Claim C1. -/

/-- Claim C1, counterexample: an upload that passes every validation gate
but whose metadata snapshot write fails ends with the persistence error while
the written file is still present in the storage directory — the
persistence-failure path performs no cleanup. -/
theorem ingest_persist_failure_leaks_file_cex :
    (ingest defaultConfig false [] [] "notes.txt" "text/plain"
        "notes_1_ab.txt" 3 none 0).outcome
      = Except.error UploadError.persistenceFailure ∧
    "notes_1_ab.txt" ∈ (ingest defaultConfig false [] [] "notes.txt"
        "text/plain" "notes_1_ab.txt" 3 none 0).disk ∧
    ([] : List String) = [] := by
  decide

/-- Claim C1, amended: for every upload attempt failing at a validation gate
(blocked extension, declared type not allowed, storage limit, type mismatch,
or sniffed type not allow-listed) the storage directory afterwards equals the
directory before the attempt; the guarantee does NOT extend to the
metadata-persistence-failure gate, where the written file is left behind. -/
theorem ingest_gate_failure_leaves_no_file (cfg : IngestConfig)
    (persistOk : Bool) (m : MetaStore) (disk : List String)
    (originalname mimetype storedName : String) (size : Nat)
    (sniffed : Option String) (now : Nat) (e : UploadError)
    (herr : (ingest cfg persistOk m disk originalname mimetype storedName
        size sniffed now).outcome = Except.error e)
    (hne : e ≠ UploadError.persistenceFailure) :
    (ingest cfg persistOk m disk originalname mimetype storedName size
        sniffed now).disk = disk := by
  unfold ingest at herr ⊢
  cases hff : fileFilter cfg originalname mimetype with
  | some e2 => simp [hff]
  | none =>
    simp only [hff] at herr ⊢
    cases hq : checkStorageLimit m size cfg.maxStorageBytes with
    | true =>
      simp only [hq, if_true] at herr ⊢
      exact List.erase_cons_head storedName disk
    | false =>
      simp only [hq] at herr ⊢
      cases hv : validateFileMimeType cfg.allowedMimeTypes mimetype sniffed with
      | mismatch =>
        simp only [hv] at herr ⊢
        simp
      | notAllowed =>
        simp only [hv] at herr ⊢
        simp
      | pass =>
        simp only [hv] at herr ⊢
        unfold ingestCommit addFile at herr
        cases persistOk with
        | true => simp at herr
        | false =>
          simp at herr
          exact absurd herr.symm hne

/-- Claim C1, witness for the amended theorem: a blocked-extension upload
leaves the (empty) storage directory unchanged. -/
theorem ingest_gate_failure_leaves_no_file_witness :
    (ingest defaultConfig true [] [] "virus.exe" "text/plain" "virus_1.exe"
        2 none 0).disk = [] :=
  ingest_gate_failure_leaves_no_file defaultConfig true [] [] "virus.exe"
    "text/plain" "virus_1.exe" 2 none 0 UploadError.extensionBlocked
    (by decide) (by decide)

/-! Claim C3. -/

/-- Claim C3, counterexample: a determinable sniffed type absent from the
allow-list with an allow-listed declared type fails with the type-MISMATCH
error, not the sniffed-type-not-allowed error: the mismatch check runs
first, so the claimed error identity is wrong. -/
theorem sniffed_not_allowed_wrong_error_cex :
    (ingest defaultConfig true [] [] "pic.png" "image/png" "pic_1.png" 4
        (some "application/x-msdownload") 0).outcome
      = Except.error UploadError.typeMismatch ∧
    defaultConfig.allowedMimeTypes.contains "image/png" = true ∧
    defaultConfig.allowedMimeTypes.contains "application/x-msdownload"
      = false ∧
    UploadError.typeMismatch ≠ UploadError.sniffedTypeNotAllowed := by
  decide

/-- Claim C3, amended: when the sniffed type is determinable and absent from
the allow-list while the declared type is allow-listed (and the earlier
extension and storage gates pass), ingest fails with the type-mismatch
error — the sniffed-type-not-allowed error can only arise when the sniffed
and declared types are equal. -/
theorem sniffed_type_not_allowed_fails_with_mismatch (cfg : IngestConfig)
    (persistOk : Bool) (m : MetaStore) (disk : List String)
    (originalname declared storedName : String) (size : Nat) (t : String)
    (now : Nat)
    (hcd : cfg.allowedMimeTypes.contains declared = true)
    (hct : cfg.allowedMimeTypes.contains t = false)
    (hext : cfg.blockedExtensions.contains (toLowerAscii (extname
        originalname)) = false)
    (hq : checkStorageLimit m size cfg.maxStorageBytes = false) :
    (ingest cfg persistOk m disk originalname declared storedName size
        (some t) now).outcome = Except.error UploadError.typeMismatch := by
  have hne : t ≠ declared := by
    rintro rfl
    rw [hcd] at hct
    exact absurd hct (by simp)
  have hff : fileFilter cfg originalname declared = none :=
    fileFilter_none cfg originalname declared hext hcd
  simp [ingest, hff, hq, validateFileMimeType, hne]

/-- Claim C3, witness for the amended theorem at a concrete input. -/
theorem sniffed_type_not_allowed_fails_with_mismatch_witness :
    (ingest defaultConfig true [] [] "doc.pdf" "application/pdf" "doc_1.pdf"
        2 (some "application/zip") 5).outcome
      = Except.error UploadError.typeMismatch :=
  sniffed_type_not_allowed_fails_with_mismatch defaultConfig true [] []
    "doc.pdf" "application/pdf" "doc_1.pdf" 2 "application/zip" 5
    (by decide) (by decide) (by decide) (by decide)

/-! Claim C4. -/

/-- Claim C4: when sniffing yields no signature, an upload is admitted only
if the declared MIME type is itself on the allow-list, and the committed
record carries the declared type as-is. -/
theorem unknown_signature_requires_declared_allowed (cfg : IngestConfig)
    (persistOk : Bool) (m : MetaStore) (disk : List String)
    (originalname declared storedName : String) (size now : Nat)
    (r : FileRecord)
    (hok : (ingest cfg persistOk m disk originalname declared storedName
        size none now).outcome = Except.ok r) :
    cfg.allowedMimeTypes.contains declared = true ∧ r.mimeType = declared := by
  cases hff : fileFilter cfg originalname declared with
  | some e =>
    rw [ingest, hff] at hok
    exact absurd hok (by simp)
  | none =>
    have hcd : cfg.allowedMimeTypes.contains declared = true := by
      by_contra hc
      have hcm : declared ∉ cfg.allowedMimeTypes := by
        simpa using Bool.eq_false_iff.mpr hc
      by_cases hb : toLowerAscii (extname originalname) ∈
          cfg.blockedExtensions
      · simp [fileFilter, hb] at hff
      · simp [fileFilter, hb, hcm] at hff
    refine ⟨hcd, ?_⟩
    rw [ingest, hff] at hok
    cases hq : checkStorageLimit m size cfg.maxStorageBytes with
    | true =>
      rw [hq] at hok
      exact absurd hok (by simp)
    | false =>
      rw [hq] at hok
      simp only [validateFileMimeType] at hok
      unfold ingestCommit addFile at hok
      cases persistOk with
      | true =>
        simp at hok
        rw [hok.symm]
        rfl
      | false =>
        simp at hok

/-- Claim C4, witness at a concrete input. -/
theorem unknown_signature_requires_declared_allowed_witness :
    cfgQuota.allowedMimeTypes.contains "text/plain" = true ∧
    (mkRecord ⟨"a_1.txt", "a.txt", "text/plain", 5, "a_1.txt"⟩ 0 10).mimeType
      = "text/plain" :=
  unknown_signature_requires_declared_allowed cfgQuota true [] [] "a.txt"
    "text/plain" "a_1.txt" 5 0
    (mkRecord ⟨"a_1.txt", "a.txt", "text/plain", 5, "a_1.txt"⟩ 0 10)
    (by decide)

/-! Claim C5. -/

/-- Claim C5: provided the upload reaches the quota gate (extension not
blocked, declared type allowed), ingest rejects with the storage-exceeded
error exactly when current usage plus the incoming size strictly exceeds
the ceiling; and in the concrete scenario with the quota equal to the first
file's size, the first ingest succeeds and a subsequent one-byte ingest is
rejected with the storage-exceeded error. -/
theorem quota_rejects_iff_strictly_exceeds :
    (∀ (cfg : IngestConfig) (persistOk : Bool) (m : MetaStore)
      (disk : List String) (originalname declared storedName : String)
      (size : Nat) (sniffed : Option String) (now : Nat),
      cfg.blockedExtensions.contains (toLowerAscii (extname originalname))
          = false →
      cfg.allowedMimeTypes.contains declared = true →
      ((ingest cfg persistOk m disk originalname declared storedName size
          sniffed now).outcome = Except.error UploadError.storageExceeded ↔
        getTotalStorageUsed m + size > cfg.maxStorageBytes)) ∧
    (ingest cfgQuota true [] [] "a.txt" "text/plain" "a_1.txt" 5 none
        0).outcome
      = Except.ok (mkRecord ⟨"a_1.txt", "a.txt", "text/plain", 5, "a_1.txt"⟩
          0 10) ∧
    (ingest cfgQuota true
        (ingest cfgQuota true [] [] "a.txt" "text/plain" "a_1.txt" 5 none
          0).store
        (ingest cfgQuota true [] [] "a.txt" "text/plain" "a_1.txt" 5 none
          0).disk
        "b.txt" "text/plain" "b_1.txt" 1 none 1).outcome
      = Except.error UploadError.storageExceeded := by
  refine ⟨?_, by decide, by decide⟩
  intro cfg persistOk m disk originalname declared storedName size sniffed
    now hext hcd
  have hff : fileFilter cfg originalname declared = none :=
    fileFilter_none cfg originalname declared hext hcd
  constructor
  · intro herr
    cases hq : checkStorageLimit m size cfg.maxStorageBytes with
    | true => exact of_decide_eq_true hq
    | false =>
      exfalso
      rw [ingest, hff, hq] at herr
      cases hv : validateFileMimeType cfg.allowedMimeTypes declared
          sniffed with
      | mismatch =>
        rw [hv] at herr
        exact absurd herr (by simp)
      | notAllowed =>
        rw [hv] at herr
        exact absurd herr (by simp)
      | pass =>
        rw [hv] at herr
        unfold ingestCommit addFile at herr
        cases persistOk with
        | true => simp at herr
        | false => simp at herr
  · intro hgt
    have hq : checkStorageLimit m size cfg.maxStorageBytes = true :=
      decide_eq_true hgt
    simp [ingest, hff, hq]

/-- Claim C5, witness: the rejection direction of the equivalence at a
concrete over-quota input. -/
theorem quota_rejects_iff_strictly_exceeds_witness :
    (ingest cfgQuota true [] [] "c.txt" "text/plain" "c_1.txt" 9 none
        0).outcome = Except.error UploadError.storageExceeded :=
  (quota_rejects_iff_strictly_exceeds.1 cfgQuota true [] [] "c.txt"
    "text/plain" "c_1.txt" 9 none 0 (by decide) (by decide)).mpr (by decide)

theorem cleanupExpiredGo_unlink_mem (persistOk : Bool) :
    ∀ (fs : List FileRecord) (st : SweepState) (f : FileRecord), f ∈ fs →
      SweepEv.unlinkTry f.path ∈ (cleanupExpiredGo persistOk fs st).2.1 := by
  intro fs
  induction fs with
  | nil =>
    intro st f hf
    simp at hf
  | cons g rest ih =>
    intro st f hf
    rcases List.mem_cons.mp hf with rfl | hf2
    · simp [cleanupExpiredGo]
    · simp only [cleanupExpiredGo, List.mem_cons, List.mem_append]
      right
      right
      exact ih ⟨st.disk.erase g.path, mapDelete st.meta g.id⟩ f hf2

theorem cleanupExpiredGo_metaDel_after_unlink (persistOk : Bool) :
    ∀ (fs : List FileRecord) (st : SweepState) (id : String) (n : Nat),
      SweepEv.metaDel id ∈ ((cleanupExpiredGo persistOk fs st).2.1).take n →
      ∃ f, f ∈ fs ∧ f.id = id ∧
        SweepEv.unlinkTry f.path
          ∈ ((cleanupExpiredGo persistOk fs st).2.1).take n := by
  intro fs
  induction fs with
  | nil =>
    intro st id n h
    simp [cleanupExpiredGo] at h
  | cons g rest ih =>
    intro st id n h
    simp only [cleanupExpiredGo] at h ⊢
    cases n with
    | zero => simp at h
    | succ n' =>
      rw [List.take_succ_cons] at h ⊢
      rcases List.mem_cons.mp h with heq | h2
      · exact absurd heq (by simp)
      · by_cases hfound : (mapGet st.meta g.id).isSome = true
        · rw [if_pos hfound] at h2 ⊢
          cases n' with
          | zero => simp at h2
          | succ n2 =>
            rw [List.singleton_append, List.take_succ_cons] at h2 ⊢
            rcases List.mem_cons.mp h2 with heq2 | h3
            · refine ⟨g, List.mem_cons_self g rest, ?_, ?_⟩
              · injection heq2 with hh
                exact hh.symm
              · exact List.mem_cons_self _ _
            · obtain ⟨f, hf, hid, hmem⟩ :=
                ih ⟨st.disk.erase g.path, mapDelete st.meta g.id⟩ id n2 h3
              exact ⟨f, List.mem_cons_of_mem g hf, hid,
                List.mem_cons_of_mem _ (List.mem_cons_of_mem _ hmem)⟩
        · rw [if_neg hfound, List.nil_append] at h2 ⊢
          obtain ⟨f, hf, hid, hmem⟩ :=
            ih ⟨st.disk.erase g.path, mapDelete st.meta g.id⟩ id n' h2
          exact ⟨f, List.mem_cons_of_mem g hf, hid,
            List.mem_cons_of_mem _ hmem⟩

/-! Claim C6. -/

/-- Claim C6: during an expiry sweep, every expired record's on-disk file
deletion is attempted (an already-absent file is tolerated and the record
still processed), and whenever a metadata-record deletion appears within
any prefix of the sweep's action trace, the file-deletion attempt for a
record with that id appears within the same prefix — the metadata record is
never removed before the file-deletion attempt. -/
theorem expiry_sweep_unlink_before_metadata_delete (st : SweepState)
    (now : Nat) (persistOk : Bool) :
    (∀ f ∈ getExpiredFiles st.meta now,
      SweepEv.unlinkTry f.path ∈ (cleanupExpiredFiles st now persistOk).2.1)
    ∧ (∀ (id : String) (n : Nat),
      SweepEv.metaDel id
          ∈ ((cleanupExpiredFiles st now persistOk).2.1).take n →
      ∃ f, f ∈ getExpiredFiles st.meta now ∧ f.id = id ∧
        SweepEv.unlinkTry f.path
          ∈ ((cleanupExpiredFiles st now persistOk).2.1).take n) :=
  ⟨fun f hf => cleanupExpiredGo_unlink_mem persistOk _ st f hf,
    fun id n h => cleanupExpiredGo_metaDel_after_unlink persistOk _ st id n h⟩

/-- Claim C6, witness: in the one-expired-record state the metadata deletion
within the first two trace events is preceded by the unlink attempt. -/
theorem expiry_sweep_unlink_before_metadata_delete_witness :
    ∃ f, f ∈ getExpiredFiles stExpired.meta 100 ∧ f.id = "e1" ∧
      SweepEv.unlinkTry f.path
        ∈ ((cleanupExpiredFiles stExpired 100 true).2.1).take 2 :=
  (expiry_sweep_unlink_before_metadata_delete stExpired 100 true).2 "e1" 2
    (by decide)

theorem cleanOrphanedMetadata_ok (m : MetaStore) (d : List String) :
    ∃ k, (cleanOrphanedMetadata m d true).2 = Except.ok k := by
  unfold cleanOrphanedMetadata
  by_cases h : (orphanedIds m d).length > 0
  · exact ⟨(orphanedIds m d).length, by simp [h]⟩
  · exact ⟨0, by simp [h]⟩

/-! Claim C7. -/

/-- Claim C7, counterexample: with one orphaned metadata record and one
orphaned file present, a sweep whose snapshot persist fails ends as a
failure and the orphaned file is still on disk — the orphaned-file phase
was never attempted — while the same state with a working persist removes
it; so a failure in one sub-phase does prevent a later phase. -/
theorem run_cleanup_phase2_failure_blocks_phase3_cex :
    (runCleanup stOrphans 0 false).2
      = CleanupResult.failed "Failed to persist metadata" ∧
    "ghost" ∈ (runCleanup stOrphans 0 false).1.disk ∧
    (runCleanup stOrphans 0 true).2 = CleanupResult.ok 0 1 1 := by
  decide

/-- Claim C7, amended: when no phase throws, all three phases run and the
per-phase counts are reported; but a persistence failure in the
orphaned-metadata phase (the only phase that can throw) aborts the run —
the result is a failure with reason and the orphaned-file phase is not
attempted, leaving the directory exactly as the expiry phase left it. -/
theorem run_cleanup_phase_isolation (st : SweepState) (now : Nat) :
    (∃ e o f, (runCleanup st now true).2 = CleanupResult.ok e o f) ∧
    (orphanedIds (cleanupExpiredFiles st now false).1.meta
        (cleanupExpiredFiles st now false).1.disk ≠ [] →
      (runCleanup st now false).2
          = CleanupResult.failed "Failed to persist metadata" ∧
      (runCleanup st now false).1.disk
          = (cleanupExpiredFiles st now false).1.disk) := by
  constructor
  · obtain ⟨k, hk⟩ := cleanOrphanedMetadata_ok
      (cleanupExpiredFiles st now true).1.meta
      (cleanupExpiredFiles st now true).1.disk
    have hpair : cleanOrphanedMetadata (cleanupExpiredFiles st now true).1.meta
        (cleanupExpiredFiles st now true).1.disk true
        = ((cleanOrphanedMetadata (cleanupExpiredFiles st now true).1.meta
            (cleanupExpiredFiles st now true).1.disk true).1, Except.ok k) :=
      Prod.ext rfl hk
    refine ⟨(cleanupExpiredFiles st now true).2.2, k, ?_, ?_⟩
    · exact (cleanupOrphanedFiles (cleanupExpiredFiles st now true).1.disk
        (cleanOrphanedMetadata (cleanupExpiredFiles st now true).1.meta
          (cleanupExpiredFiles st now true).1.disk true).1).2
    · simp only [runCleanup]
      rw [hpair]
  · intro hne
    have hlen : (orphanedIds (cleanupExpiredFiles st now false).1.meta
        (cleanupExpiredFiles st now false).1.disk).length > 0 :=
      List.length_pos.mpr hne
    have hfail : cleanOrphanedMetadata
        (cleanupExpiredFiles st now false).1.meta
        (cleanupExpiredFiles st now false).1.disk false
        = ((orphanedIds (cleanupExpiredFiles st now false).1.meta
            (cleanupExpiredFiles st now false).1.disk).foldl
              (fun acc i => mapDelete acc i)
              (cleanupExpiredFiles st now false).1.meta,
          Except.error "Failed to persist metadata") := by
      unfold cleanOrphanedMetadata
      rw [if_pos hlen]
      simp
    constructor
    · simp only [runCleanup]
      rw [hfail]
    · simp only [runCleanup]
      rw [hfail]

/-- Claim C7, witness for the amended theorem at the orphan fixture. -/
theorem run_cleanup_phase_isolation_witness :
    (runCleanup stOrphans 5 false).2
        = CleanupResult.failed "Failed to persist metadata" ∧
    (runCleanup stOrphans 5 false).1.disk
        = (cleanupExpiredFiles stOrphans 5 false).1.disk :=
  (run_cleanup_phase_isolation stOrphans 5).2 (by decide)

/-! Claim C9. -/

/-- Claim C9, counterexample: the store has no mutual-exclusion point.  In
the schedule 0,1,1,0 both puts complete (every segment executed), yet the
final durable snapshot is the one built before the second put and misses
the completed put of record b; neither serial order of the two
mutate-then-persist sequences produces that snapshot, so the sequences are
not serialized by any mutual-exclusion point and a reported-successful put
is lost from the durable snapshot. -/
theorem concurrent_puts_lost_update_cex :
    (concRun twoPutInit [0, 1, 1, 0]).threads.all
        (fun t => t.done1 && t.done2) = true ∧
    (concRun twoPutInit [0, 1, 1, 0]).disk = [("a", recA)] ∧
    (concRun twoPutInit [0, 0, 1, 1]).disk = [("a", recA), ("b", recB)] ∧
    (concRun twoPutInit [1, 1, 0, 0]).disk = [("b", recB), ("a", recA)] ∧
    ("b", recB) ∉ (concRun twoPutInit [0, 1, 1, 0]).disk := by
  decide

/-- Claim C9, amended: the mutate-in-memory-then-write-snapshot sequences
are NOT serialized through any mutual-exclusion point: there is a schedule
under which both concurrent puts complete every segment — the record of the
second put is in the in-memory map, its addFile reported success — yet the
final durable snapshot does not contain it, while under either serialized
order of the two sequences the final snapshot contains both records.  (The
model grants the program atomic completion of each snapshot write; even so
the lost durable update arises, and the real program, whose concurrent
writes can additionally interleave below this granularity, can only behave
worse.) -/
theorem metadata_put_lost_without_lock :
    (∃ sched : List Nat,
      (concRun twoPutInit sched).threads.all
          (fun t => t.done1 && t.done2) = true ∧
      mapGet (concRun twoPutInit sched).mem recB.id = some recB ∧
      mapGet (concRun twoPutInit sched).disk recB.id = none) ∧
    mapGet (concRun twoPutInit [0, 0, 1, 1]).disk recB.id = some recB ∧
    mapGet (concRun twoPutInit [1, 1, 0, 0]).disk recB.id = some recB := by
  exact ⟨⟨[0, 1, 1, 0], by decide, by decide, by decide⟩, by decide, by decide⟩

end FileZee
